import Mathlib

/-!
Verification of the HPO Portal front-end logic (src/script.js).

The JavaScript source is shallowly embedded: JS strings become Lean
strings (lists of characters underneath), the selection array becomes a
Lean list, the debounced search handler becomes a small state machine,
and the fallible network layer becomes explicit fetch-outcome values.
Every definition follows the corresponding function in src/script.js.
-/

namespace HPOPortal

/-- A term record as built by processSearchResults and FREQUENT_TERMS:
the fields the selection, export and detail-view logic read. -/
structure Term where
  id : String
  name : String
deriving DecidableEq

/-! ## JavaScript string primitives

String.prototype.trim removes leading and trailing whitespace; we model
the whitespace class by the usual ASCII space characters. -/

/-- Characters removed by the JS trim (ASCII whitespace). -/
def isJsSpace (c : Char) : Bool :=
  c = ' ' || c = '\t' || c = '\n' || c = '\r' || c = '\x0b' || c = '\x0c'

/-- Trim on the character list: drop the whitespace prefix, then the
whitespace suffix. -/
def trimChars (l : List Char) : List Char :=
  (l.dropWhile isJsSpace).rdropWhile isJsSpace

/-- String.prototype.trim. -/
def jsTrim (s : String) : String :=
  ⟨trimChars s.data⟩

/-- The head of a dropWhile result never satisfies the predicate. -/
theorem not_head_dropWhile (p : Char → Bool) (l : List Char) (x : Char) (xs : List Char)
    (h : l.dropWhile p = x :: xs) : p x = false := by
  induction l with
  | nil => simp [List.dropWhile] at h
  | cons c rest ih =>
    by_cases hc : p c
    · rw [List.dropWhile_cons_of_pos hc] at h
      exact ih h
    · rw [List.dropWhile_cons_of_neg hc] at h
      injection h with h1 _
      rw [← h1]
      simpa using hc

/-- The left trim leaves a list whose head is not whitespace, so dropping
the whitespace prefix of the right-trimmed result is the identity. -/
theorem dropWhile_rdropWhile_dropWhile (p : Char → Bool) (l : List Char) :
    ((l.dropWhile p).rdropWhile p).dropWhile p = (l.dropWhile p).rdropWhile p := by
  cases hT : (l.dropWhile p).rdropWhile p with
  | nil => simp
  | cons x xs =>
    obtain ⟨t, ht⟩ := List.rdropWhile_prefix p (l.dropWhile p)
    rw [hT] at ht
    have hx : p x = false := not_head_dropWhile p l x (xs ++ t) (by simpa using ht.symm)
    rw [List.dropWhile_cons_of_neg (by simp [hx])]

/-- JS trim is idempotent. -/
theorem trimChars_idem (l : List Char) : trimChars (trimChars l) = trimChars l := by
  unfold trimChars
  rw [dropWhile_rdropWhile_dropWhile, List.rdropWhile_idempotent]

/-- Idempotence lifted to strings. -/
theorem jsTrim_idem (s : String) : jsTrim (jsTrim s) = jsTrim s := by
  unfold jsTrim
  exact congrArg String.mk (trimChars_idem s.data)

/-- String.prototype.split with a semicolon separator, on the character
list: every occurrence of the separator starts a new (possibly empty)
piece, as in JS. -/
def splitSemis : List Char → List (List Char)
  | [] => [[]]
  | c :: rest =>
    if c = ';' then [] :: splitSemis rest
    else
      match splitSemis rest with
      | [] => [[c]]
      | g :: gs => (c :: g) :: gs

/-- The inverse of splitSemis: concatenate the pieces back with a
semicolon between consecutive pieces (Array.prototype.join with a
semicolon, on character lists). -/
def joinSemis : List (List Char) → List Char
  | [] => []
  | [g] => g
  | g :: h :: gs => g ++ ';' :: joinSemis (h :: gs)

/-- splitSemis never returns an empty list of pieces. -/
theorem splitSemis_ne_nil (l : List Char) : splitSemis l ≠ [] := by
  cases l with
  | nil => simp [splitSemis]
  | cons c rest =>
    simp only [splitSemis]
    split
    · simp
    · split <;> simp

/-- Joining the split pieces with semicolons restores the source list:
splitSemis decomposes its input in source order without loss. -/
theorem joinSemis_splitSemis (l : List Char) : joinSemis (splitSemis l) = l := by
  induction l with
  | nil => rfl
  | cons c rest ih =>
    obtain ⟨g, gs, hsplit⟩ := List.exists_cons_of_ne_nil (splitSemis_ne_nil rest)
    by_cases hc : c = ';'
    · subst hc
      rw [show splitSemis (';' :: rest) = [] :: splitSemis rest from by
        simp [splitSemis]]
      rw [hsplit] at ih ⊢
      show [] ++ ';' :: joinSemis (g :: gs) = ';' :: rest
      rw [List.nil_append, ih]
    · rw [show splitSemis (c :: rest) = (c :: g) :: gs from by
        simp only [splitSemis, if_neg hc, hsplit]]
      rw [hsplit] at ih
      cases gs with
      | nil =>
        show c :: g = c :: rest
        rw [show joinSemis [g] = g from rfl] at ih
        rw [ih]
      | cons h hs =>
        show (c :: g) ++ ';' :: joinSemis (h :: hs) = c :: rest
        rw [List.cons_append, ← ih]
        rfl

/-! ## parseSynonyms (src/script.js lines 402-414)

The JS argument can be null/undefined, a string, an array, or anything
else; the four constructors model that. The falsy guard at the top of
the function also fires on the empty string. -/

/-- The possible shapes of the synonyms value handed to parseSynonyms. -/
inductive SynValue where
  | nullish : SynValue
  | str : String → SynValue
  | arr : List String → SynValue
  | other : SynValue

/-- parseSynonyms: split a semicolon-joined string, or trim an array of
strings, keeping only the non-empty trimmed pieces in source order. -/
def parseSynonyms : SynValue → List String
  | .nullish => []
  | .str s =>
    if s = "" then []
    else ((splitSemis s.data).map (fun part => String.mk (trimChars part))).filter
      (fun x => x ≠ "")
  | .arr l => (l.map jsTrim).filter (fun x => x ≠ "")
  | .other => []

/-! ## Selection store (src/script.js lines 635-662) -/

/-- addTermToSelection: no-op when some selected term has the same id,
otherwise push to the end. -/
def addTermToSelection (selectedTerms : List Term) (term : Term) : List Term :=
  if selectedTerms.any (fun selected => selected.id = term.id) then selectedTerms
  else selectedTerms ++ [term]

/-- removeTermFromSelection: keep the terms whose id differs. -/
def removeTermFromSelection (selectedTerms : List Term) (termId : String) : List Term :=
  selectedTerms.filter (fun term => term.id ≠ termId)

/-- clearAllSelections resets the array to empty. -/
def clearAllSelections : List Term := []

/-! ## Selection UI state

Each mutation in src/script.js ends with renderSelectionList (which sets
the N-terms label) and updateExportButtonState (which sets
exportBtn.disabled to length === 0). We carry both pieces of derived UI
state next to the array. -/

/-- The selection list together with the derived UI bits the mutations
keep in sync. -/
structure SelectionUI where
  selectedTerms : List Term
  exportDisabled : Bool
  countLabel : String
deriving DecidableEq

/-- updateExportButtonState: disabled exactly when the array is empty. -/
def updateExportButtonState (ui : SelectionUI) : SelectionUI :=
  { ui with exportDisabled := ui.selectedTerms.length = 0 }

/-- The count label renderSelectionList writes. -/
def renderSelectionCount (ui : SelectionUI) : SelectionUI :=
  { ui with countLabel := toString ui.selectedTerms.length ++ " terms" }

/-- The add click path: addTermToSelection, then re-render and refresh
the export button. -/
def doAdd (ui : SelectionUI) (term : Term) : SelectionUI :=
  updateExportButtonState (renderSelectionCount
    { ui with selectedTerms := addTermToSelection ui.selectedTerms term })

/-- The remove click path: removeTermFromSelection, then re-render and
refresh the export button. -/
def doRemove (ui : SelectionUI) (termId : String) : SelectionUI :=
  updateExportButtonState (renderSelectionCount
    { ui with selectedTerms := removeTermFromSelection ui.selectedTerms termId })

/-- The clear-all click path: clearAllSelections, then re-render and
refresh the export button. -/
def doClear (ui : SelectionUI) : SelectionUI :=
  updateExportButtonState (renderSelectionCount
    { ui with selectedTerms := clearAllSelections })

/-! ## Export (src/script.js lines 846-870) -/

/-- Array.prototype.join: pieces concatenated with the separator between
consecutive pieces, nothing at either end. -/
def jsJoin (sep : String) : List String → String
  | [] => ""
  | [s] => s
  | s :: r :: rs => s ++ sep ++ jsJoin sep (r :: rs)

/-- The text written into the exported blob: one name-tab-id line per
selected term, joined by single newlines. -/
def exportContent (selectedTerms : List Term) : String :=
  jsJoin "\n" (selectedTerms.map (fun term => term.name ++ "\t" ++ term.id))

/-- exportSelectedTerms: a no-op on an empty selection; otherwise it
produces the blob content and then calls clearAllSelections. The first
component is the downloaded text, none when nothing happened. -/
def exportSelectedTerms (ui : SelectionUI) : Option String × SelectionUI :=
  if ui.selectedTerms.length = 0 then (none, ui)
  else (some (exportContent ui.selectedTerms), doClear ui)

/-! ## Search debounce (src/script.js lines 202-216)

handleSearchInput reads the trimmed input value, shows the empty-search
state and returns when it is empty, and otherwise shows the loading
state, calls clearTimeout on the stored handle and stores a fresh
setTimeout handle that will run performHPOSearch with the captured
query. We model timer handles as numbers: clearTimeout-plus-setTimeout
is the replacement of the pending handle, and a timeout that was
replaced never runs, which the fire transition expresses by matching the
handle against the pending one. calls records every performHPOSearch
invocation in order. -/

/-- The four result-area states of the search controller. -/
inductive ResultsUI where
  | emptySearch : ResultsUI
  | loading : ResultsUI
  | results : ResultsUI
  | noResults : ResultsUI
  | errorState : ResultsUI
deriving DecidableEq

/-- The part of AppState the search handler touches, plus the trace of
issued search calls. -/
structure SearchState where
  ui : ResultsUI
  pending : Option (Nat × String)
  nextHandle : Nat
  calls : List String
deriving DecidableEq

/-- The state before any input event. -/
def initialSearchState : SearchState :=
  { ui := .emptySearch, pending := none, nextHandle := 0, calls := [] }

/-- handleSearchInput on one input event carrying the raw field value. -/
def handleSearchInput (st : SearchState) (raw : String) : SearchState :=
  let query := jsTrim raw
  if query = "" then { st with ui := .emptySearch }
  else
    { st with
      ui := .loading
      pending := some (st.nextHandle, query)
      nextHandle := st.nextHandle + 1 }

/-- The debounce timer with the given handle elapses: if it is still the
pending one it runs performHPOSearch on its captured query; a handle
that was replaced by clearTimeout-plus-setTimeout does nothing. -/
def fireTimer (st : SearchState) (handle : Nat) : SearchState :=
  match st.pending with
  | some (h, query) =>
    if h = handle then
      { st with pending := none, calls := st.calls ++ [query] }
    else st
  | none => st

/-! ## Detail-view annotations (src/script.js lines 331-348, 436-445,
762-805, 916-927)

fetchJAXAnnotations launches four fetches under one try. A transport
failure on any of them rejects the Promise.all and lands in the catch;
otherwise, when the annotations, parents and children responses are ok
(the term response status is never checked), the four bodies are parsed,
a parse failure again landing in the catch. The catch only logs, and the
function then returns the empty fallback structure, so the function
itself never throws. -/

/-- One endpoint's outcome: transport failure, or a response with a
status flag and a body (none models a body json() rejects on). -/
inductive Fetched (α : Type) where
  | netfail : Fetched α
  | resp : Bool → Option α → Fetched α

/-- The annotation endpoint's parsed body: the genes and diseases
fields, none modelling a value that is not an array. Gene entries keep
only the name field; disease entries keep name and id. -/
structure AnnBody where
  genes : Option (List String)
  diseases : Option (List (String × String))

/-- The term endpoint's parsed body: definition (empty string modelling
a falsy value) and synonyms (none modelling a non-array). -/
structure TermBody where
  definition : String
  synonyms : Option (List String)

/-- The four responses one detail-view open observes. -/
structure FetchEnv where
  annotations : Fetched AnnBody
  term : Fetched TermBody
  parents : Fetched (List (String × String))
  children : Fetched (List (String × String))

/-- The JS failure structure sets definition to an empty array where the
success path sets a string; the sum keeps that quirk visible. -/
inductive DefnValue where
  | str : String → DefnValue
  | emptyList : DefnValue
deriving DecidableEq

/-- What fetchJAXAnnotations resolves to. -/
structure Annotations where
  definition : DefnValue
  synonyms : List String
  genes : List String
  diseases : List String
  parents : List (String × String)
  children : List (String × String)
deriving DecidableEq

/-- The fallback structure returned after the catch or after a non-ok
status check. -/
def emptyAnnotations : Annotations :=
  { definition := .emptyList, synonyms := [], genes := [], diseases := []
    parents := [], children := [] }

/-- fetchJAXAnnotations. The Except layer records that the function
could reject its promise; the code catches everything, so every branch
is an ok. -/
def fetchJAXAnnotations (env : FetchEnv) : Except Unit Annotations :=
  match env.annotations, env.term, env.parents, env.children with
  | .resp aOk aBody, .resp _ tBody, .resp pOk pBody, .resp cOk cBody =>
    if aOk && pOk && cOk then
      match aBody, tBody, pBody, cBody with
      | some ann, some termData, some ps, some cs =>
        .ok
          { definition :=
              .str (if termData.definition = "" then "No definition available"
                else termData.definition)
            synonyms :=
              match termData.synonyms with
              | some l => l.filter (fun s => s ≠ "")
              | none => []
            genes :=
              match ann.genes with
              | some l => l.filter (fun s => s ≠ "")
              | none => []
            diseases :=
              match ann.diseases with
              | some l =>
                (l.map (fun d => d.1 ++ " (" ++ d.2 ++ ")")).filter (fun s => s ≠ "")
              | none => []
            parents := ps
            children := cs }
      | _, _, _, _ => .ok emptyAnnotations
    else .ok emptyAnnotations
  | _, _, _, _ => .ok emptyAnnotations

/-- The condition under which fetchJAXAnnotations reaches its success
branch instead of returning the fallback structure. -/
def annSuccessPath (env : FetchEnv) : Bool :=
  match env.annotations, env.term, env.parents, env.children with
  | .resp aOk (some _), .resp _ (some _), .resp pOk (some _), .resp cOk (some _) =>
    aOk && pOk && cOk
  | _, _, _, _ => false

/-- The innerHTML updateModalGenesList leaves in the genes section. -/
def updateModalGenesList (genes : List String) : String :=
  if genes.length > 0 then
    String.join (genes.map (fun geneName =>
      "<span class=\"gene-chip\">" ++ geneName ++ "</span>"))
  else "<em>No associated genes found</em>"

/-- The innerHTML updateModalDiseasesList leaves in the diseases
section. -/
def updateModalDiseasesList (diseases : List String) : String :=
  if diseases.length > 0 then
    String.join (diseases.map (fun disease => "<li>" ++ disease ++ "</li>"))
  else "<li>No associated diseases found</li>"

/-- What one detail-view open leaves in the genes and diseases sections,
and whether the annotation request went out at all. -/
structure DetailOutcome where
  issuedAnnotationFetch : Bool
  genes : String
  diseases : String
  threw : Bool
deriving DecidableEq

/-- loadModalAnnotations: render the resolved annotations, or on a
rejection render the unable-to-load placeholders via
showModalErrorState. -/
def loadModalAnnotations (env : FetchEnv) : DetailOutcome :=
  match fetchJAXAnnotations env with
  | .ok ann =>
    { issuedAnnotationFetch := true
      genes := updateModalGenesList ann.genes
      diseases := updateModalDiseasesList ann.diseases
      threw := false }
  | .error _ =>
    { issuedAnnotationFetch := true
      genes := "<em>Unable to load genes</em>"
      diseases := "<li><em>Unable to load diseases</em></li>"
      threw := false }

/-- showTermDetailsModal, restricted to the annotation flow: the genes
and diseases sections start as loading placeholders, then a truthy id
runs loadModalAnnotations while a falsy one runs showModalNoDataState
without any fetch. -/
def showTermDetailsModal (term : Term) (env : FetchEnv) : DetailOutcome :=
  if term.id ≠ "" then loadModalAnnotations env
  else
    { issuedAnnotationFetch := false
      genes := "<em>No HP ID available</em>"
      diseases := "<li><em>No HP ID available</em></li>"
      threw := false }

/-! ## Helper lemmas -/

/-- Appending one more piece to a non-empty join inserts exactly one
separator before it. -/
theorem jsJoin_append_singleton (sep : String) (l : List String) (s : String)
    (h : l ≠ []) : jsJoin sep (l ++ [s]) = jsJoin sep l ++ sep ++ s := by
  induction l with
  | nil => exact absurd rfl h
  | cons x rest ih =>
    cases rest with
    | nil => simp [jsJoin]
    | cons y rs =>
      have hy := ih (List.cons_ne_nil y rs)
      simp only [List.cons_append] at hy ⊢
      show x ++ sep ++ jsJoin sep (y :: (rs ++ [s])) =
        x ++ sep ++ jsJoin sep (y :: rs) ++ sep ++ s
      rw [hy]
      simp [String.append_assoc]

/-- A batch of non-empty trimmed inputs leaves the loading state shown,
exactly one pending timer carrying the last trimmed query, and no search
call issued. -/
theorem foldl_handleSearchInput_nonempty (qs : List String) (st : SearchState)
    (h : qs ≠ []) (hq : ∀ q ∈ qs, jsTrim q ≠ "") :
    List.foldl handleSearchInput st qs =
      { ui := .loading
        pending := some (st.nextHandle + qs.length - 1, jsTrim (qs.getLast h))
        nextHandle := st.nextHandle + qs.length
        calls := st.calls } := by
  induction qs generalizing st with
  | nil => exact absurd rfl h
  | cons q rest ih =>
    have hq1 : jsTrim q ≠ "" := hq q (by simp)
    cases rest with
    | nil =>
      simp [handleSearchInput, hq1]
    | cons r rs =>
      have hstep : handleSearchInput st q =
          { st with
            ui := .loading
            pending := some (st.nextHandle, jsTrim q)
            nextHandle := st.nextHandle + 1 } := by
        simp [handleSearchInput, hq1]
      have hrest : ∀ x ∈ r :: rs, jsTrim x ≠ "" :=
        fun x hx => hq x (List.mem_cons_of_mem q hx)
      rw [List.foldl_cons, hstep, ih _ (List.cons_ne_nil r rs) hrest]
      have hlast : (q :: r :: rs).getLast h = (r :: rs).getLast (List.cons_ne_nil r rs) :=
        List.getLast_cons _
      simp only [SearchState.mk.injEq, Option.some.injEq, Prod.mk.injEq,
        List.length_cons, hlast]
      exact ⟨trivial, ⟨by omega, trivial⟩, by omega, trivial⟩

/-- Outside the success path fetchJAXAnnotations resolves to the empty
fallback structure. -/
theorem fetchJAXAnnotations_fallback (env : FetchEnv) (h : annSuccessPath env = false) :
    fetchJAXAnnotations env = .ok emptyAnnotations := by
  obtain ⟨a, t, p, c⟩ := env
  cases a with
  | netfail => rfl
  | resp aOk aB =>
    cases t with
    | netfail => rfl
    | resp tOk tB =>
      cases p with
      | netfail => rfl
      | resp pOk pB =>
        cases c with
        | netfail => rfl
        | resp cOk cB =>
          cases aB <;> cases tB <;> cases pB <;> cases cB <;>
            simp_all [annSuccessPath, fetchJAXAnnotations]

/-! ## Claims -/

/-- C5: parseSynonyms maps the semicolon-joined string and the sequence
form to the same canonical list; every output entry is a trimmed,
non-empty string, and both input forms keep their source order: for a
sequence the output is a sublist of the trimmed input, and for a string
the output is a sublist of the per-piece trimmed semicolon split, whose
pieces joined back with semicolons restore the source string exactly. -/
theorem parseSynonyms_normalizes :
    (parseSynonyms (.str "tall stature; long fingers") = ["tall stature", "long fingers"])
    ∧ (parseSynonyms (.arr ["tall stature", "long fingers"]) = ["tall stature", "long fingers"])
    ∧ (∀ (v : SynValue) (s : String), s ∈ parseSynonyms v → jsTrim s = s ∧ s ≠ "")
    ∧ (∀ l : List String, List.Sublist (parseSynonyms (.arr l)) (l.map jsTrim))
    ∧ (∀ s : String, List.Sublist (parseSynonyms (.str s))
        ((splitSemis s.data).map (fun part => String.mk (trimChars part))))
    ∧ (∀ l : List Char, joinSemis (splitSemis l) = l) := by
  refine ⟨by decide, by decide, ?_, fun l => List.filter_sublist _, ?_,
    joinSemis_splitSemis⟩
  · intro v s hs
    cases v with
    | nullish => simp [parseSynonyms] at hs
    | other => simp [parseSynonyms] at hs
    | str raw =>
      by_cases hraw : raw = ""
      · simp [parseSynonyms, hraw] at hs
      · rw [parseSynonyms, if_neg hraw] at hs
        rw [List.mem_filter] at hs
        obtain ⟨hmem, hpred⟩ := hs
        obtain ⟨part, _, rfl⟩ := List.mem_map.mp hmem
        refine ⟨?_, by simpa using hpred⟩
        show String.mk (trimChars (trimChars part)) = String.mk (trimChars part)
        rw [trimChars_idem]
    | arr l =>
      rw [parseSynonyms, List.mem_filter] at hs
      obtain ⟨hmem, hpred⟩ := hs
      obtain ⟨x, _, rfl⟩ := List.mem_map.mp hmem
      exact ⟨jsTrim_idem x, by simpa using hpred⟩
  · intro s
    by_cases hs : s = ""
    · rw [parseSynonyms, if_pos hs]
      exact List.nil_sublist _
    · rw [parseSynonyms, if_neg hs]
      exact List.filter_sublist _

/-- C6: the selection store keeps at most one term per id and preserves
order: adding an already-present id changes nothing, adding a fresh id
appends at the end, and add, remove and clear all preserve distinctness
of the stored ids; removal keeps the surviving entries in order. -/
theorem selection_store_invariant :
    (∀ (l : List Term) (t : Term),
      l.any (fun selected => selected.id = t.id) → addTermToSelection l t = l)
    ∧ (∀ (l : List Term) (t : Term),
      ¬ l.any (fun selected => selected.id = t.id) → addTermToSelection l t = l ++ [t])
    ∧ (∀ (l : List Term) (t : Term),
      (l.map Term.id).Nodup → ((addTermToSelection l t).map Term.id).Nodup)
    ∧ (∀ (l : List Term) (tid : String),
      (l.map Term.id).Nodup → ((removeTermFromSelection l tid).map Term.id).Nodup)
    ∧ (∀ (l : List Term) (tid : String), List.Sublist (removeTermFromSelection l tid) l)
    ∧ (clearAllSelections.map Term.id).Nodup := by
  refine ⟨?_, ?_, ?_, ?_, ?_, by simp [clearAllSelections]⟩
  · intro l t h
    simp only [addTermToSelection, if_pos h]
  · intro l t h
    simp only [addTermToSelection]
    rw [if_neg h]
  · intro l t hnd
    by_cases h : l.any (fun selected => selected.id = t.id)
    · rw [show addTermToSelection l t = l from by simp only [addTermToSelection, if_pos h]]
      exact hnd
    · have hfresh : t.id ∉ l.map Term.id := by
        simp only [List.any_eq_true, decide_eq_true_eq] at h
        simp only [List.mem_map]
        rintro ⟨s, hsl, hsid⟩
        exact h ⟨s, hsl, hsid⟩
      simp only [addTermToSelection, if_neg h, List.map_append, List.map_cons,
        List.map_nil]
      rw [List.nodup_append]
      exact ⟨hnd, List.nodup_singleton _, by
        intro x hx hx1
        simp only [List.mem_singleton] at hx1
        exact absurd hx (hx1 ▸ hfresh)⟩
  · intro l tid hnd
    exact List.Nodup.sublist (List.Sublist.map Term.id (List.filter_sublist l)) hnd
  · intro l tid
    exact List.filter_sublist l

/-- C10: adding a term whose id is fresh and then removing that id
restores the store exactly. -/
theorem add_then_remove_round_trip (l : List Term) (t : Term)
    (h : ∀ s ∈ l, s.id ≠ t.id) :
    removeTermFromSelection (addTermToSelection l t) t.id = l := by
  have hany : l.any (fun selected => selected.id = t.id) = false := by
    simp only [List.any_eq_false, decide_eq_true_eq]
    exact h
  rw [addTermToSelection, if_neg (by simp [hany]), removeTermFromSelection,
    List.filter_append]
  have h1 : l.filter (fun term => term.id ≠ t.id) = l :=
    List.filter_eq_self.mpr (fun a ha => by simpa using h a ha)
  have h2 : [t].filter (fun term => term.id ≠ t.id) = [] := by simp
  rw [h1, h2, List.append_nil]

/-- C10 witness: a concrete fresh add-then-remove round trip. -/
theorem add_then_remove_round_trip_witness :
    removeTermFromSelection
      (addTermToSelection [⟨"HP:0001250", "Seizure"⟩] ⟨"HP:0000252", "Microcephaly"⟩)
      "HP:0000252" = [⟨"HP:0001250", "Seizure"⟩] :=
  add_then_remove_round_trip _ _ (by decide)

/-- C1 counterexample: the export of the two-term store of the claim is
joined by a separator newline only, so the claimed string with its
trailing newline is not produced. -/
theorem export_trailing_newline_cex :
    exportContent [⟨"HP:0001250", "Seizure"⟩, ⟨"HP:0000252", "Microcephaly"⟩] ≠
      "Seizure\tHP:0001250\nMicrocephaly\tHP:0000252\n" := by
  decide

/-- C1 amended: the export artifact has one name-tab-id line per stored
term in store order, with a single newline between consecutive lines
and no trailing newline; the two-term store of the claim produces the
claimed string minus its final newline. -/
theorem export_line_per_term :
    (exportContent [⟨"HP:0001250", "Seizure"⟩, ⟨"HP:0000252", "Microcephaly"⟩] =
      "Seizure\tHP:0001250\nMicrocephaly\tHP:0000252")
    ∧ (exportContent [] = "")
    ∧ (∀ t : Term, exportContent [t] = t.name ++ "\t" ++ t.id)
    ∧ (∀ (l : List Term) (t : Term), l ≠ [] →
      exportContent (l ++ [t]) = exportContent l ++ "\n" ++ (t.name ++ "\t" ++ t.id)) := by
  refine ⟨by decide, rfl, fun t => rfl, ?_⟩
  intro l t hl
  unfold exportContent
  rw [List.map_append, List.map_singleton,
    jsJoin_append_singleton _ _ _ (by simpa using hl), String.append_assoc]

/-- C2 counterexample: a non-empty keystroke followed by a cleared query
leaves the earlier debounce timer pending, and when it elapses the
search for the stale query is still issued, while the result area shows
the empty-search state. -/
theorem clear_query_stale_timer_cex :
    (List.foldl handleSearchInput initialSearchState ["sei", "   "]).ui =
      ResultsUI.emptySearch
    ∧ (fireTimer (List.foldl handleSearchInput initialSearchState ["sei", "   "]) 0).calls =
      ["sei"] := by
  decide

/-- C2 amended: an input event whose trimmed query is empty transitions
the result area to the empty-search state and issues no search call
itself, but it does not cancel a pending debounce timer: a search
scheduled by an earlier keystroke still fires when its timer elapses. -/
theorem empty_query_idle_keeps_timer (st : SearchState) (raw : String)
    (h : jsTrim raw = "") :
    (handleSearchInput st raw).ui = ResultsUI.emptySearch
    ∧ (handleSearchInput st raw).calls = st.calls
    ∧ (handleSearchInput st raw).pending = st.pending
    ∧ (∀ (handle : Nat) (query : String), st.pending = some (handle, query) →
      (fireTimer (handleSearchInput st raw) handle).calls = st.calls ++ [query]) := by
  refine ⟨by simp [handleSearchInput, h], by simp [handleSearchInput, h],
    by simp [handleSearchInput, h], ?_⟩
  intro handle query hp
  simp [handleSearchInput, h, fireTimer, hp]

/-- C2 witness: the amended behavior at a whitespace-only input over a
state with one pending timer. -/
theorem empty_query_idle_keeps_timer_witness :
    (handleSearchInput
        { ui := .loading, pending := some (0, "sei"), nextHandle := 1, calls := [] }
        "   ").ui = ResultsUI.emptySearch
    ∧ (handleSearchInput
        { ui := .loading, pending := some (0, "sei"), nextHandle := 1, calls := [] }
        "   ").calls = []
    ∧ (handleSearchInput
        { ui := .loading, pending := some (0, "sei"), nextHandle := 1, calls := [] }
        "   ").pending = some (0, "sei")
    ∧ (∀ (handle : Nat) (query : String),
      ({ ui := .loading, pending := some (0, "sei"), nextHandle := 1,
          calls := [] } : SearchState).pending = some (handle, query) →
      (fireTimer
          (handleSearchInput
            { ui := .loading, pending := some (0, "sei"), nextHandle := 1, calls := [] }
            "   ") handle).calls = [] ++ [query]) :=
  empty_query_idle_keeps_timer _ _ (by decide)

/-- C3: over any burst of keystrokes with non-empty trimmed queries and
no timer expiry in between, no search call is issued during the burst,
exactly one timer is pending afterwards and it carries the last
keystroke's query, firing it issues exactly that one search call, and
the timer handle of every earlier keystroke has been cancelled: firing
any other handle changes nothing. -/
theorem debounce_last_keystroke_wins (qs : List String) (st : SearchState)
    (h : qs ≠ []) (hq : ∀ q ∈ qs, jsTrim q ≠ "") :
    (List.foldl handleSearchInput st qs).calls = st.calls
    ∧ (List.foldl handleSearchInput st qs).pending =
      some (st.nextHandle + qs.length - 1, jsTrim (qs.getLast h))
    ∧ (fireTimer (List.foldl handleSearchInput st qs)
        (st.nextHandle + qs.length - 1)).calls = st.calls ++ [jsTrim (qs.getLast h)]
    ∧ (∀ handle : Nat, handle ≠ st.nextHandle + qs.length - 1 →
      fireTimer (List.foldl handleSearchInput st qs) handle =
        List.foldl handleSearchInput st qs) := by
  rw [foldl_handleSearchInput_nonempty qs st h hq]
  refine ⟨rfl, rfl, by simp [fireTimer], ?_⟩
  intro handle hne
  simp [fireTimer, Ne.symm hne]

/-- C3 witness: a concrete two-keystroke burst within the debounce
window fires exactly one search, for the last query. -/
theorem debounce_last_keystroke_wins_witness :
    (List.foldl handleSearchInput initialSearchState ["se", "sei"]).calls = []
    ∧ (List.foldl handleSearchInput initialSearchState ["se", "sei"]).pending =
      some (initialSearchState.nextHandle + (["se", "sei"] : List String).length - 1,
        jsTrim ((["se", "sei"] : List String).getLast (by decide)))
    ∧ (fireTimer (List.foldl handleSearchInput initialSearchState ["se", "sei"])
        (initialSearchState.nextHandle + (["se", "sei"] : List String).length - 1)).calls =
      [] ++ [jsTrim ((["se", "sei"] : List String).getLast (by decide))]
    ∧ (∀ handle : Nat,
      handle ≠ initialSearchState.nextHandle + (["se", "sei"] : List String).length - 1 →
      fireTimer (List.foldl handleSearchInput initialSearchState ["se", "sei"]) handle =
        List.foldl handleSearchInput initialSearchState ["se", "sei"]) :=
  debounce_last_keystroke_wins ["se", "sei"] initialSearchState (by decide)
    (by decide)

/-- C4 counterexample: with every endpoint failing at the transport
level, the genes section of an open detail view for a term with an id
does not show the unable-to-load placeholder; the empty-data
placeholder appears instead. -/
theorem detail_failure_placeholder_cex :
    (showTermDetailsModal ⟨"HP:0001250", "Seizure"⟩
        ⟨.netfail, .netfail, .netfail, .netfail⟩).genes ≠
      "<em>Unable to load genes</em>"
    ∧ (showTermDetailsModal ⟨"HP:0001250", "Seizure"⟩
        ⟨.netfail, .netfail, .netfail, .netfail⟩).genes =
      "<em>No associated genes found</em>" := by
  exact ⟨by decide, by decide⟩

/-- C4 amended: whenever the combined detail fetch misses its success
path — a transport failure on any endpoint, a non-success status on the
annotations, parents or children endpoint (the term endpoint's status
is never checked), or an unparseable body — fetchJAXAnnotations catches
the failure and resolves to the empty fallback structure, so the genes
and diseases sections leave their loading placeholders for the
empty-data placeholders, not the unable-to-load ones, and nothing is
thrown out of the detail controller. -/
theorem detail_failure_empty_placeholders (term : Term) (env : FetchEnv)
    (hid : term.id ≠ "") (hfail : annSuccessPath env = false) :
    showTermDetailsModal term env =
      { issuedAnnotationFetch := true
        genes := "<em>No associated genes found</em>"
        diseases := "<li>No associated diseases found</li>"
        threw := false } := by
  rw [showTermDetailsModal, if_pos hid, loadModalAnnotations,
    fetchJAXAnnotations_fallback env hfail]
  rfl

/-- C4 witness: the amended failure rendering at an all-transport-failure
environment. -/
theorem detail_failure_empty_placeholders_witness :
    showTermDetailsModal ⟨"HP:0001250", "Seizure"⟩
        ⟨.netfail, .netfail, .netfail, .netfail⟩ =
      { issuedAnnotationFetch := true
        genes := "<em>No associated genes found</em>"
        diseases := "<li>No associated diseases found</li>"
        threw := false } :=
  detail_failure_empty_placeholders _ _ (by decide) rfl

/-- C7: after each selection mutation the export affordance is enabled
exactly when the store is non-empty, and clear-all leaves a store of
count zero with the affordance disabled. -/
theorem export_affordance_tracks_count (ui : SelectionUI) (t : Term) (tid : String) :
    ((doAdd ui t).exportDisabled = false ↔ 0 < (doAdd ui t).selectedTerms.length)
    ∧ ((doRemove ui tid).exportDisabled = false ↔
      0 < (doRemove ui tid).selectedTerms.length)
    ∧ ((doClear ui).exportDisabled = false ↔ 0 < (doClear ui).selectedTerms.length)
    ∧ (doClear ui).selectedTerms.length = 0
    ∧ (doClear ui).exportDisabled = true := by
  refine ⟨?_, ?_, ?_, ?_, ?_⟩ <;>
    simp [doAdd, doRemove, doClear, updateExportButtonState, renderSelectionCount,
      clearAllSelections, Nat.pos_iff_ne_zero]

/-- C8: opening the detail view for a term whose id is empty issues no
annotation network call and immediately leaves the no-identifier
placeholder in the genes and diseases sections. -/
theorem no_id_no_annotation_fetch (term : Term) (env : FetchEnv)
    (h : term.id = "") :
    showTermDetailsModal term env =
      { issuedAnnotationFetch := false
        genes := "<em>No HP ID available</em>"
        diseases := "<li><em>No HP ID available</em></li>"
        threw := false } := by
  rw [showTermDetailsModal, if_neg (by simp [h])]

/-- C8 witness: an id-less term against an arbitrary environment. -/
theorem no_id_no_annotation_fetch_witness :
    showTermDetailsModal ⟨"", "Unnamed phenotype"⟩
        ⟨.netfail, .netfail, .netfail, .netfail⟩ =
      { issuedAnnotationFetch := false
        genes := "<em>No HP ID available</em>"
        diseases := "<li><em>No HP ID available</em></li>"
        threw := false } :=
  no_id_no_annotation_fetch _ _ rfl

/-- C9: exporting a non-empty selection empties the store: the export
completes with the blob content produced and a store of count zero. -/
theorem export_clears_store (ui : SelectionUI) (h : ui.selectedTerms ≠ []) :
    (exportSelectedTerms ui).1 = some (exportContent ui.selectedTerms)
    ∧ (exportSelectedTerms ui).2.selectedTerms.length = 0 := by
  have hlen : ¬ ui.selectedTerms.length = 0 := by
    simpa [List.length_eq_zero] using h
  rw [exportSelectedTerms, if_neg hlen]
  exact ⟨rfl, by simp [doClear, updateExportButtonState, renderSelectionCount,
    clearAllSelections]⟩

/-- C9 witness: exporting a concrete one-term selection empties it. -/
theorem export_clears_store_witness :
    (exportSelectedTerms
        { selectedTerms := [⟨"HP:0001250", "Seizure"⟩], exportDisabled := false,
          countLabel := "1 terms" }).1 =
      some (exportContent [⟨"HP:0001250", "Seizure"⟩])
    ∧ (exportSelectedTerms
        { selectedTerms := [⟨"HP:0001250", "Seizure"⟩], exportDisabled := false,
          countLabel := "1 terms" }).2.selectedTerms.length = 0 :=
  export_clears_store _ (by decide)

end HPOPortal
